import Mathlib

/-!
Verification of the Fresh-to-Octa ingestion pipeline.

Shallow embedding of the parts of the repository referenced by the claims:
strings are `List Char`, machine-level I/O (HTTP responses, download
outcomes, MySQL success/failure) is passed in explicitly as data, and
Python exceptions are `Except` / `Option` values.  Every definition is
translated from the corresponding source function; doc comments name the
source symbol.
-/

set_option maxRecDepth 10000

namespace FreshToOcta

/-- Characters rewritten to an underscore by `safe_filename`
(`fresh_to_supa_stage_public.py`, regex `[<>:"/\\|?*\x00-\x1F]`):
the nine literal characters plus all control characters below 0x20. -/
def isIllegalChar (c : Char) : Bool :=
  c = '<' || c = '>' || c = ':' || c = '"' || c = '/' || c = '\\' ||
  c = '|' || c = '?' || c = '*' || decide (c.toNat ≤ 0x1F)

/-- Embedding of `safe_filename(name)`: replace every illegal character by
an underscore, then truncate to 180 characters. -/
def safe_filename (name : List Char) : List Char :=
  (name.map fun c => if isIllegalChar c then '_' else c).take 180

/-- Python `str.split(sep)`: split on every occurrence of `sep`, keeping
empty segments.  The result is always nonempty. -/
def pySplit (sep : Char) : List Char → List (List Char)
  | [] => [[]]
  | c :: rest =>
    match pySplit sep rest with
    | [] => [[]]
    | g :: gs => if c = sep then [] :: g :: gs else (c :: g) :: gs

/-- Python `s or t` on strings: `t` when `s` is empty (falsy), else `s`. -/
def strOr (s t : List Char) : List Char :=
  if s = [] then t else s

/-- Embedding of `url.split("/")[-1].split("?")[0]`: the last
slash-separated segment of the URL, without its query string. -/
def pyUrlTail (url : List Char) : List Char :=
  (pySplit '?' ((pySplit '/' url).getLastD [])).headD []

/-- Decimal digit character for a value `0 ≤ d ≤ 9`. -/
def decDigitChar (d : Nat) : Char :=
  if d = 0 then '0' else if d = 1 then '1' else if d = 2 then '2'
  else if d = 3 then '3' else if d = 4 then '4' else if d = 5 then '5'
  else if d = 6 then '6' else if d = 7 then '7' else if d = 8 then '8'
  else '9'

/-- Fuel-driven decimal printer core (fuel bounds the digit count; with
fuel `n + 1` for value `n` it never runs out). -/
def natDecCore : Nat → Nat → List Char → List Char
  | 0, _, acc => acc
  | fuel + 1, n, acc =>
    if n < 10 then decDigitChar (n % 10) :: acc
    else natDecCore fuel (n / 10) (decDigitChar (n % 10) :: acc)

/-- Decimal representation of a natural number, as produced by Python
string interpolation of an `int`. -/
def natDecimal (n : Nat) : List Char :=
  natDecCore (n + 1) n []

/-- Filename given to a conversation attachment in
`collect_conversation_attachments`:
`safe_filename(a.get("name") or url.split("/")[-1].split("?")[0] or "attachment")`. -/
def convAttachmentName (declared : Option (List Char)) (url : List Char) : List Char :=
  safe_filename (strOr (declared.getD []) (strOr (pyUrlTail url) "attachment".data))

/-- Filename given to an inline-scraped image in
`collect_inline_from_description`: the URL tail (or `inline_<idx>` when
empty) is sanitized and truncated, and only then the `inline_<idx>_`
marker is prepended. -/
def inlineAttachmentName (idx : Nat) (url : List Char) : List Char :=
  "inline_".data ++ natDecimal idx ++ "_".data ++
    safe_filename (strOr (pyUrlTail url) ("inline_".data ++ natDecimal idx))

/-- Lowercase a string (`str.lower()` on the ASCII range used here). -/
def lowerStr (s : List Char) : List Char :=
  s.map Char.toLower

/-- The token alternatives of `SIGNATURE_NAME_RE` other than `image0+\d`. -/
def sigWords : List (List Char) :=
  ["logo", "assinatura", "signature", "rodape", "footer", "facebook",
   "instagram", "linkedin", "twitter", "whatsapp", "tracking", "pixel"].map String.data

/-- Does `image0+\d` match at the head of the string?  The regex matches
here exactly when the text starts `image0` followed by a digit (a longer
zero run satisfies it with the last zero serving as the digit). -/
def imageZeroDigitHere (s : List Char) : Bool :=
  match s with
  | 'i' :: 'm' :: 'a' :: 'g' :: 'e' :: '0' :: d :: _ => d.isDigit
  | _ => false

/-- Does the pattern match starting at some position of the string? -/
def sigMatchesFrom : List Char → Bool
  | [] => false
  | c :: rest =>
    imageZeroDigitHere (c :: rest) ||
    sigWords.any (fun w => w.isPrefixOf (c :: rest)) ||
    sigMatchesFrom rest

/-- Embedding of `SIGNATURE_NAME_RE.search` (case-insensitive). -/
def sigSearch (s : List Char) : Bool :=
  sigMatchesFrom (lowerStr s)

/-- Embedding of `is_signature_like(name, url)`. -/
def is_signature_like (name url : List Char) : Bool :=
  sigSearch name || sigSearch url

/-- The `ALLOWED_DOC_CT` MIME allow-list. -/
def ALLOWED_DOC_CT : List (List Char) :=
  ["application/pdf",
   "application/msword",
   "application/vnd.openxmlformats-officedocument.wordprocessingml.document",
   "application/vnd.ms-excel",
   "application/vnd.openxmlformats-officedocument.spreadsheetml.sheet",
   "application/vnd.ms-powerpoint",
   "application/vnd.openxmlformats-officedocument.presentationml.presentation",
   "application/zip",
   "application/x-zip-compressed",
   "application/vnd.rar",
   "application/x-7z-compressed",
   "text/plain"].map String.data

/-- Embedding of `content_type_allowed(ct)`: a missing or empty content
type is allowed; otherwise images, audio and video always pass and
documents pass only via the allow-list. -/
def content_type_allowed (ct : Option (List Char)) : Bool :=
  match ct with
  | none => true
  | some s =>
    if s = [] then true
    else
      let l := lowerStr s
      "image/".data.isPrefixOf l || "audio/".data.isPrefixOf l ||
      "video/".data.isPrefixOf l || ALLOWED_DOC_CT.contains l

/-- Python substring containment `p in s`: does `p` occur contiguously in
`s`?  (True for empty `p`.) -/
def substrSearch (p : List Char) : List Char → Bool
  | [] => p.isEmpty
  | c :: rest => p.isPrefixOf (c :: rest) || substrSearch p rest

/-- One row of the run's error ledger (`log_error(kind, ticket_id, ...)`);
the extra key-value context of `log_error` is not needed by the claims and
is omitted. -/
structure LedgerEntry where
  kind : String
  ticket_id : Option Int
  deriving Repr, DecidableEq

/-- Outcome of one `requests.get` for an attachment body: either the
response bytes together with the `Content-Type` header (absent when the
server sends none), or an HTTP/network failure (`raise_for_status` or a
transport error). -/
inductive DlOutcome
  | ok (body : List Nat) (respCt : Option (List Char))
  | httpFail
  deriving Repr, DecidableEq

/-- The metadata fields of one conversation-attachment JSON object that
`collect_conversation_attachments` reads.  `url` is the coalesced
`attachment_url or url or content_url` (`none` also standing for the
falsy empty string); `size` is the coalesced truthy `size or bytes`
(so a declared size of 0 is `none`, as in the source). -/
structure ConvAttRec where
  url : Option (List Char)
  name : Option (List Char)
  content_type : Option (List Char)
  size : Option Nat
  deriving Repr, DecidableEq

/-- The attachment row appended to `out` (later upserted into the
`attachments` table); only the fields the claims mention. -/
structure AttRow where
  name : List Char
  content_type : Option (List Char)
  size_bytes : Option Nat
  deriving Repr, DecidableEq

/-- What processing one attachment candidate did: ledger entries
appended, whether a download request was issued, the `save_bytes` call if
any (filename and bytes written to attachment storage), and the row kept
for persistence. -/
structure AttResult where
  ledger : List LedgerEntry
  downloadAttempted : Bool
  stored : Option (List Char × List Nat)
  row : Option AttRow
  deriving Repr, DecidableEq

/-- Embedding of the per-attachment body of
`collect_conversation_attachments` in the configuration that stores
bytes (`download_dir` set, hence `base_dir` truthy — the only
configuration in which `save_bytes` can run).  `maxBytes`/`minBytes` are
`max_mb*1024*1024` and `max(0,min_kb)*1024`; `dl` is the outcome the
remote returns for this attachment's URL. -/
def processConvAtt (sigBlock : Bool) (maxBytes minBytes : Nat) (tid : Int)
    (dl : DlOutcome) (a : ConvAttRec) : AttResult :=
  match a.url with
  | none => ⟨[], false, none, none⟩
  | some url =>
    let name := convAttachmentName a.name url
    let ct0 := strOr (a.content_type.getD []) "application/octet-stream".data
    if sigBlock && is_signature_like name url then
      ⟨[⟨"attachment_skipped_signature_like", some tid⟩], false, none, none⟩
    else if !content_type_allowed (some ct0) then
      ⟨[⟨"attachment_skipped_content_type", some tid⟩], false, none, none⟩
    else
      match dl with
      | .httpFail => ⟨[⟨"conv_attachment_download_failed", some tid⟩], true, none, none⟩
      | .ok body respCt =>
        let size := body.length
        if size ≠ 0 ∧ maxBytes < size then
          ⟨[⟨"attachment_skipped_too_large", some tid⟩], true, none, none⟩
        else
          let ct1 := respCt.getD ct0
          if size < minBytes then
            ⟨[⟨"attachment_skipped_too_small", some tid⟩], true, none, none⟩
          else
            ⟨[], true, some (name, body), some ⟨name, some ct1, some size⟩⟩

/-- The built-in `DEFAULT_INLINE_BLOCKLIST`. -/
def DEFAULT_INLINE_BLOCKLIST : List (List Char) :=
  ["italac.com.br/assinatura-italac",
   "cdn.omie.com.br/publish/email",
   "portaldecomprasscala.com/configuracao/scala/logo_interno.jpg",
   "static1.squarespace.com"].map String.data

/-- Embedding of the per-URL body of `collect_inline_from_description`:
`hasBaseDir` is whether `download_dir and ticket_id` is truthy (only then
is the image downloaded and stored); `dl` is the download outcome for
this URL. -/
def processInline (blockHosts : List (List Char)) (minBytes : Nat)
    (hasBaseDir : Bool) (tid : Option Int) (dl : DlOutcome)
    (idx : Nat) (url : List Char) : AttResult :=
  let name := inlineAttachmentName idx url
  let urlL := lowerStr url
  if blockHosts.any (fun b => substrSearch b urlL) || is_signature_like name url then
    ⟨[⟨"inline_blocked_by_pattern", tid⟩], false, none, none⟩
  else if hasBaseDir then
    match dl with
    | .httpFail => ⟨[⟨"inline_download_failed", tid⟩], true, none, none⟩
    | .ok body respCt =>
      let size := body.length
      if size < minBytes then
        ⟨[⟨"inline_skipped_too_small", tid⟩], true, none, none⟩
      else if !content_type_allowed respCt then
        ⟨[⟨"inline_skipped_content_type", tid⟩], true, none, none⟩
      else
        ⟨[], true, some (name, body), some ⟨name, respCt, some size⟩⟩
  else
    ⟨[], false, none, some ⟨name, none, none⟩⟩

theorem safe_filename_length_le (s : List Char) : (safe_filename s).length ≤ 180 := by
  simp only [safe_filename, List.length_take]
  exact min_le_left _ _

theorem safe_filename_chars (s : List Char) :
    ∀ c ∈ safe_filename s, isIllegalChar c = false := by
  intro c hc
  have h1 : c ∈ s.map fun a => if isIllegalChar a then '_' else a :=
    List.mem_of_mem_take hc
  rcases List.mem_map.1 h1 with ⟨a, _, rfl⟩
  by_cases h : isIllegalChar a = true
  · rw [if_pos h]; decide
  · rw [if_neg h]
    simpa using h

theorem decDigitChar_legal (d : Nat) : isIllegalChar (decDigitChar d) = false := by
  unfold decDigitChar
  repeat' split
  all_goals decide

theorem natDecCore_chars :
    ∀ (fuel n : Nat) (acc : List Char), (∀ c ∈ acc, isIllegalChar c = false) →
      ∀ c ∈ natDecCore fuel n acc, isIllegalChar c = false := by
  intro fuel
  induction fuel with
  | zero => intro n acc h c hc; exact h c hc
  | succ f ih =>
    intro n acc h c hc
    unfold natDecCore at hc
    split at hc
    · rcases List.mem_cons.1 hc with rfl | hm
      · exact decDigitChar_legal _
      · exact h c hm
    · refine ih _ _ ?_ c hc
      intro c' hc'
      rcases List.mem_cons.1 hc' with rfl | hm
      · exact decDigitChar_legal _
      · exact h c' hm

theorem natDecimal_chars (n : Nat) :
    ∀ c ∈ natDecimal n, isIllegalChar c = false :=
  natDecCore_chars _ _ _ (by intro c hc; cases hc)

theorem inlineMarker_chars : ∀ c ∈ "inline_".data, isIllegalChar c = false := by
  decide

theorem underscore_chars : ∀ c ∈ "_".data, isIllegalChar c = false := by
  decide

theorem inlineAttachmentName_chars (idx : Nat) (url : List Char) :
    ∀ c ∈ inlineAttachmentName idx url, isIllegalChar c = false := by
  intro c hc
  unfold inlineAttachmentName at hc
  rcases List.mem_append.1 hc with h1 | hsafe
  · rcases List.mem_append.1 h1 with h2 | hund
    · rcases List.mem_append.1 h2 with hpre | hdig
      · exact inlineMarker_chars c hpre
      · exact natDecimal_chars idx c hdig
    · exact underscore_chars c hund
  · exact safe_filename_chars _ c hsafe

theorem inlineAttachmentName_length (idx : Nat) (url : List Char) :
    (inlineAttachmentName idx url).length ≤ 188 + (natDecimal idx).length := by
  have h := safe_filename_length_le (strOr (pyUrlTail url) ("inline_".data ++ natDecimal idx))
  simp only [inlineAttachmentName, List.length_append]
  have hb : (['i', 'n', 'l', 'i', 'n', 'e', '_'] : List Char).length = 7 := rfl
  have hd : (['_'] : List Char).length = 1 := rfl
  have he : safe_filename (strOr (pyUrlTail url) (['i', 'n', 'l', 'i', 'n', 'e', '_'] ++ natDecimal idx))
      = safe_filename (strOr (pyUrlTail url) ("inline_".data ++ natDecimal idx)) := rfl
  rw [he]
  omega

/-- A concrete inline image URL whose tail has 180 usable characters. -/
def longInlineUrl : List Char :=
  "http://img.example.com/".data ++ List.replicate 180 'a' ++ ".png".data

/-- C3 counterexample: for this concrete inline-scraped image (blocked by
nothing, ticket 1001, default blocklist) the pipeline keeps a row whose
stored filename is `inline_1_` followed by the 180-character sanitized
tail — 189 characters, exceeding the claimed 180-character bound. -/
theorem C3_filename_length_counterexample :
    (processInline DEFAULT_INLINE_BLOCKLIST 5120 false (some 1001)
        DlOutcome.httpFail 1 longInlineUrl).row =
      some ⟨inlineAttachmentName 1 longInlineUrl, none, none⟩ ∧
    (inlineAttachmentName 1 longInlineUrl).length = 189 ∧
    180 < (inlineAttachmentName 1 longInlineUrl).length := by
  refine ⟨by decide, by decide, by decide⟩

/-- C3 (amended): every sanitized filename, and in particular every
conversation-attachment filename, has length at most 180 and contains no
filesystem-illegal or control character; inline-scraped filenames also
contain no illegal or control character, but their length is only
bounded by 188 plus the number of digits of the running index, because
the `inline_<idx>_` marker is prepended after truncation. -/
theorem C3_filename_sanitization :
    (∀ s, (safe_filename s).length ≤ 180 ∧
      ∀ c ∈ safe_filename s, isIllegalChar c = false) ∧
    (∀ declared url, (convAttachmentName declared url).length ≤ 180 ∧
      ∀ c ∈ convAttachmentName declared url, isIllegalChar c = false) ∧
    (∀ idx url, (∀ c ∈ inlineAttachmentName idx url, isIllegalChar c = false) ∧
      (inlineAttachmentName idx url).length ≤ 188 + (natDecimal idx).length) := by
  refine ⟨fun s => ⟨safe_filename_length_le s, safe_filename_chars s⟩,
    fun declared url => ⟨safe_filename_length_le _, safe_filename_chars _⟩,
    fun idx url => ⟨inlineAttachmentName_chars idx url, inlineAttachmentName_length idx url⟩⟩

/-- C3 witness: the sanitizer bound and character guarantee at a
concrete filename (the `<` and `:` become underscores, which are
legal). -/
theorem C3_filename_sanitization_witness :
    (safe_filename "a<b:c.txt".data).length ≤ 180 ∧ isIllegalChar '_' = false := by
  refine ⟨(C3_filename_sanitization.1 "a<b:c.txt".data).1, ?_⟩
  exact (C3_filename_sanitization.1 "a<b".data).2 '_' (by decide)

/-- A concrete conversation attachment whose declared content type is an
allowed image type, with no signature-like token in name or URL. -/
def c4Att : ConvAttRec :=
  ⟨some "http://files.example.com/report-data.bin".data,
   some "report-data.bin".data, some "image/png".data, none⟩

/-- Result of processing `c4Att` when the download response carries a
disallowed measured `Content-Type` (`application/octet-stream`). -/
def c4Result : AttResult :=
  processConvAtt true 15728640 0 1001
    (DlOutcome.ok [65, 66, 67] (some "application/octet-stream".data)) c4Att

/-- C4 counterexample: the conversation-attachment path checks only the
declared content type before download; the measured response type is
recorded but never re-checked, so bytes are written to storage for an
attachment whose (authoritative, measured) content type is not allowed,
and no ledger entry of any kind is appended for it. -/
theorem C4_blocked_write_counterexample :
    c4Result.stored = some ("report-data.bin".data, [65, 66, 67]) ∧
    c4Result.row =
      some ⟨"report-data.bin".data, some "application/octet-stream".data, some 3⟩ ∧
    content_type_allowed (some "application/octet-stream".data) = false ∧
    c4Result.ledger = [] := by
  refine ⟨by decide, by decide, by decide, by decide⟩

/-- C4 (amended): signature-matched conversation attachments (blocking
enabled), conversation attachments whose declared content type is
disallowed, pattern-blocked inline images, and inline images whose
measured response content type is disallowed (when not already skipped as
too small) are never stored — no bytes are written — and the
corresponding ledger entry is appended with the ticket id.  The
content-type guarantee for conversation attachments covers only the
declared type checked before download, not the measured response type. -/
theorem C4_blocked_attachments_never_stored :
    (∀ maxB minB tid dl (a : ConvAttRec) url, a.url = some url →
      is_signature_like (convAttachmentName a.name url) url = true →
      processConvAtt true maxB minB tid dl a =
        ⟨[⟨"attachment_skipped_signature_like", some tid⟩], false, none, none⟩) ∧
    (∀ sigBlock maxB minB tid dl (a : ConvAttRec) url, a.url = some url →
      (sigBlock && is_signature_like (convAttachmentName a.name url) url) = false →
      content_type_allowed
        (some (strOr (a.content_type.getD []) "application/octet-stream".data)) = false →
      processConvAtt sigBlock maxB minB tid dl a =
        ⟨[⟨"attachment_skipped_content_type", some tid⟩], false, none, none⟩) ∧
    (∀ blockHosts minB hasBaseDir tid dl idx url,
      (blockHosts.any (fun b => substrSearch b (lowerStr url)) ||
        is_signature_like (inlineAttachmentName idx url) url) = true →
      processInline blockHosts minB hasBaseDir tid dl idx url =
        ⟨[⟨"inline_blocked_by_pattern", tid⟩], false, none, none⟩) ∧
    (∀ blockHosts minB tid body respCt idx url,
      (blockHosts.any (fun b => substrSearch b (lowerStr url)) ||
        is_signature_like (inlineAttachmentName idx url) url) = false →
      minB ≤ body.length →
      content_type_allowed respCt = false →
      processInline blockHosts minB true tid (DlOutcome.ok body respCt) idx url =
        ⟨[⟨"inline_skipped_content_type", tid⟩], true, none, none⟩) := by
  refine ⟨?_, ?_, ?_, ?_⟩
  · intro maxB minB tid dl a url hurl hsig
    simp only [processConvAtt, hurl]
    simp [hsig]
  · intro sigBlock maxB minB tid dl a url hurl hsig hct
    simp only [processConvAtt, hurl]
    simp [hsig, hct]
  · intro blockHosts minB hasBaseDir tid dl idx url hb
    simp only [processInline]
    simp [hb]
  · intro blockHosts minB tid body respCt idx url hb hmin hct
    simp only [processInline]
    simp [hb, hct, Nat.not_lt.2 hmin]

/-- C4 witness: concrete instances of all four blocked cases. -/
theorem C4_blocked_attachments_witness :
    processConvAtt true 15728640 0 7 DlOutcome.httpFail
        ⟨some "http://x.example.com/logo.png".data, some "logo.png".data,
         some "image/png".data, none⟩ =
      ⟨[⟨"attachment_skipped_signature_like", some 7⟩], false, none, none⟩ ∧
    processConvAtt false 15728640 0 7 DlOutcome.httpFail
        ⟨some "http://x.example.com/a.exe".data, some "a.exe".data,
         some "application/x-msdownload".data, none⟩ =
      ⟨[⟨"attachment_skipped_content_type", some 7⟩], false, none, none⟩ ∧
    processInline DEFAULT_INLINE_BLOCKLIST 0 true (some 7) DlOutcome.httpFail 1
        "http://static1.squarespace.com/a.png".data =
      ⟨[⟨"inline_blocked_by_pattern", some 7⟩], false, none, none⟩ ∧
    processInline [] 0 true (some 7)
        (DlOutcome.ok [1, 2, 3] (some "text/html".data)) 1
        "http://x.example.com/a.png".data =
      ⟨[⟨"inline_skipped_content_type", some 7⟩], true, none, none⟩ := by
  refine ⟨?_, ?_, ?_, ?_⟩
  · exact C4_blocked_attachments_never_stored.1 _ _ _ _ _ _ rfl (by decide)
  · exact C4_blocked_attachments_never_stored.2.1 _ _ _ _ _ _ _ rfl (by decide) (by decide)
  · exact C4_blocked_attachments_never_stored.2.2.1 _ _ _ _ _ _ _ (by decide)
  · exact C4_blocked_attachments_never_stored.2.2.2 _ _ _ _ _ _ _ (by decide) (by decide) (by decide)

/-- C10: a missing or empty content type passes the content-type policy,
so an inline image whose download response carries no `Content-Type`
header (and which is not pattern-blocked or too small) is stored rather
than blocked. -/
theorem C10_missing_content_type_allowed :
    content_type_allowed none = true ∧
    content_type_allowed (some []) = true ∧
    (∀ blockHosts minB tid body idx url,
      (blockHosts.any (fun b => substrSearch b (lowerStr url)) ||
        is_signature_like (inlineAttachmentName idx url) url) = false →
      minB ≤ body.length →
      (processInline blockHosts minB true tid (DlOutcome.ok body none) idx url).stored =
        some (inlineAttachmentName idx url, body) ∧
      (processInline blockHosts minB true tid (DlOutcome.ok body none) idx url).row =
        some ⟨inlineAttachmentName idx url, none, some body.length⟩) := by
  refine ⟨rfl, rfl, ?_⟩
  intro blockHosts minB tid body idx url hb hmin
  simp only [processInline]
  simp [hb, Nat.not_lt.2 hmin, content_type_allowed]

/-- C10 witness: a concrete inline image with no response content type is
stored. -/
theorem C10_missing_content_type_witness :
    (processInline [] 0 (true : Bool) (some 7)
        (DlOutcome.ok [9, 9] none) 1 "http://x.example.com/a.png".data).stored =
      some (inlineAttachmentName 1 "http://x.example.com/a.png".data, [9, 9]) := by
  exact (C10_missing_content_type_allowed.2.2 [] 0 (some 7) [9, 9] 1
    "http://x.example.com/a.png".data (by decide) (by decide)).1

/-- The JSON-derived Python values that can reach `int32_or_none`:
null, booleans, integers, strings, and a non-convertible container
(standing for lists/dicts, on which `int(v)` raises `TypeError`). -/
inductive PyVal
  | vNone
  | vBool (b : Bool)
  | vInt (n : Int)
  | vStr (s : List Char)
  | vListVal (xs : List Int)
  deriving Repr, DecidableEq

/-- Python `str.strip()` (whitespace removal at both ends). -/
def pyStrip (s : List Char) : List Char :=
  ((s.dropWhile Char.isWhitespace).reverse.dropWhile Char.isWhitespace).reverse

/-- Decimal value of a digit string. -/
def digitsToNat (s : List Char) : Nat :=
  s.foldl (fun a c => 10 * a + (c.toNat - 48)) 0

/-- A nonempty all-digit string parsed to its value; `none` otherwise. -/
def parseDecDigits (s : List Char) : Option Nat :=
  if s ≠ [] ∧ s.all Char.isDigit then some (digitsToNat s) else none

/-- Python `int(s)` on a string: optional surrounding whitespace, an
optional sign, then decimal digits; anything else raises `ValueError`
(`none`).  Digit-group underscores, a rarely used Python extension, are
outside the modelled subset. -/
def pyIntOfStr (s : List Char) : Option Int :=
  match pyStrip s with
  | '+' :: rest => (parseDecDigits rest).map fun n => (n : Int)
  | '-' :: rest => (parseDecDigits rest).map fun n => -(n : Int)
  | rest => (parseDecDigits rest).map fun n => (n : Int)

/-- Python `int(v)`: `none` models the `TypeError`/`ValueError` caught by
the `except` clause of `int32_or_none`. -/
def pyToInt : PyVal → Option Int
  | .vNone => none
  | .vBool b => some (if b then 1 else 0)
  | .vInt n => some n
  | .vStr s => pyIntOfStr s
  | .vListVal _ => none

/-- `INT32_MIN` from the source. -/
def INT32_MIN : Int := -2147483648

/-- `INT32_MAX` from the source. -/
def INT32_MAX : Int := 2147483647

/-- Embedding of `int32_or_none(v)`: convert with `int(v)`, keep the
value only inside the signed 32-bit range, and map both conversion
failure and out-of-range values to `None`. -/
def int32_or_none (v : PyVal) : Option Int :=
  match pyToInt v with
  | some n => if INT32_MIN ≤ n ∧ n ≤ INT32_MAX then some n else none
  | none => none

/-- C8: the bounded-integer normalizer returns `int(v)` exactly when the
value lies in the signed 32-bit range and `None` for out-of-range or
non-convertible values, with concrete boundary checks; being a total
Lean function, it never raises. -/
theorem C8_int32_normalizer :
    (∀ v n, int32_or_none v = some n ↔
      (pyToInt v = some n ∧ -2147483648 ≤ n ∧ n ≤ 2147483647)) ∧
    int32_or_none (PyVal.vInt 2147483647) = some 2147483647 ∧
    int32_or_none (PyVal.vInt 2147483648) = none ∧
    int32_or_none (PyVal.vInt (-2147483648)) = some (-2147483648) ∧
    int32_or_none (PyVal.vInt (-2147483649)) = none ∧
    int32_or_none (PyVal.vStr " 123 ".data) = some 123 ∧
    int32_or_none (PyVal.vStr "12.5".data) = none ∧
    int32_or_none (PyVal.vStr "2147483648".data) = none ∧
    int32_or_none PyVal.vNone = none := by
  refine ⟨?_, by decide, by decide, by decide, by decide, by decide, by decide, by decide, rfl⟩
  intro v n
  unfold int32_or_none INT32_MIN INT32_MAX
  cases h : pyToInt v with
  | none => simp
  | some m =>
    dsimp only
    split_ifs with hb
    · simp only [Option.some_inj]
      constructor
      · rintro rfl
        exact ⟨rfl, hb.1, hb.2⟩
      · rintro ⟨he, -, -⟩
        exact he
    · constructor
      · intro he
        exact absurd he (by simp)
      · rintro ⟨he, h1, h2⟩
        obtain rfl := Option.some_inj.1 he
        exact absurd ⟨h1, h2⟩ hb

/-- Read exactly `n` decimal digits from the front of the string. -/
def readNDigits (n : Nat) (cs : List Char) : Option (Nat × List Char) :=
  let pre := cs.take n
  if pre.length = n ∧ pre.all Char.isDigit then some (digitsToNat pre, cs.drop n)
  else none

/-- Gregorian leap year, as `datetime` validates dates. -/
def isLeap (y : Nat) : Bool :=
  (y % 4 == 0 && y % 100 != 0) || y % 400 == 0

/-- Days in a month, as `datetime` validates dates. -/
def daysInMonth (y m : Nat) : Nat :=
  if m = 2 then (if isLeap y then 29 else 28)
  else if m = 4 ∨ m = 6 ∨ m = 9 ∨ m = 11 then 30
  else 31

/-- The fields of a Python `datetime` relevant to `parse_dt`. -/
structure PyDateTime where
  year : Nat
  month : Nat
  day : Nat
  hour : Nat
  minute : Nat
  second : Nat
  microsecond : Nat
  tzOffsetMinutes : Option Int
  deriving Repr, DecidableEq

/-- Optional fractional-second part: a dot followed by one to six
digits, or nothing. -/
def parseFraction (cs : List Char) : Option (Nat × List Char) :=
  match cs with
  | '.' :: rest =>
    let ds := rest.takeWhile Char.isDigit
    if 1 ≤ ds.length ∧ ds.length ≤ 6 then some (digitsToNat ds, rest.drop ds.length)
    else none
  | _ => some (0, cs)

/-- Optional trailing UTC offset `±HH:MM` (what `+00:00` produces). -/
def parseUtcOffset (cs : List Char) : Option (Option Int) :=
  match cs with
  | [] => some none
  | '+' :: rest => do
    let (h, r1) ← readNDigits 2 rest
    match r1 with
    | ':' :: r2 => do
      let (m, r3) ← readNDigits 2 r2
      if h ≤ 23 ∧ m ≤ 59 ∧ r3 = [] then some (some ((h * 60 + m : Nat) : Int))
      else none
    | _ => none
  | '-' :: rest => do
    let (h, r1) ← readNDigits 2 rest
    match r1 with
    | ':' :: r2 => do
      let (m, r3) ← readNDigits 2 r2
      if h ≤ 23 ∧ m ≤ 59 ∧ r3 = [] then some (some (-((h * 60 + m : Nat) : Int)))
      else none
    | _ => none
  | _ => none

/-- Time-of-day tail `HH:MM[:SS[.ffffff]][±HH:MM]`. -/
def parseTimeTail (cs : List Char) : Option (Nat × Nat × Nat × Nat × Option Int) := do
  let (h, r1) ← readNDigits 2 cs
  match r1 with
  | ':' :: r2 => do
    let (mi, r3) ← readNDigits 2 r2
    let (s, frac, r4) ←
      (match r3 with
       | ':' :: r5 => do
         let (s, r6) ← readNDigits 2 r5
         let (f, r7) ← parseFraction r6
         some (s, f, r7)
       | _ => some (0, 0, r3))
    let tz ← parseUtcOffset r4
    if h ≤ 23 ∧ mi ≤ 59 ∧ s ≤ 59 then some (h, mi, s, frac, tz) else none
  | _ => none

/-- Model of `datetime.fromisoformat` on the extended ISO-8601 subset
this pipeline's data uses: `YYYY-MM-DD`, optionally followed by a
one-character separator and `HH:MM[:SS[.ffffff]]` with an optional
`±HH:MM` offset; anything else raises `ValueError` (`none`). -/
def pyFromIsoformat (cs : List Char) : Option PyDateTime := do
  let (y, r1) ← readNDigits 4 cs
  match r1 with
  | '-' :: r2 => do
    let (mo, r3) ← readNDigits 2 r2
    match r3 with
    | '-' :: r4 => do
      let (d, r5) ← readNDigits 2 r4
      if 1 ≤ y ∧ 1 ≤ mo ∧ mo ≤ 12 ∧ 1 ≤ d ∧ d ≤ daysInMonth y mo then
        match r5 with
        | [] => some ⟨y, mo, d, 0, 0, 0, 0, none⟩
        | _ :: r6 => do
          let (h, mi, s, f, tz) ← parseTimeTail r6
          some ⟨y, mo, d, h, mi, s, f, tz⟩
      else none
    | _ => none
  | _ => none

/-- Embedding of `s.replace("Z", "+00:00")`: every `Z` is replaced. -/
def pyReplaceZ (cs : List Char) : List Char :=
  (cs.map fun c => if c = 'Z' then "+00:00".data else [c]).flatten

/-- Embedding of `s.endswith("Z")`. -/
def pyEndsWithZ (cs : List Char) : Bool :=
  cs.getLast? == some 'Z'

/-- Zero-padded two-digit field of `strftime`. -/
def pad2 (n : Nat) : List Char :=
  if n < 10 then '0' :: natDecimal n else natDecimal n

/-- Zero-padded four-digit year of `strftime`. -/
def pad4 (n : Nat) : List Char :=
  List.replicate (4 - (natDecimal n).length) '0' ++ natDecimal n

/-- Embedding of `dt.strftime("%Y-%m-%d %H:%M:%S")`. -/
def strftime_YmdHMS (dt : PyDateTime) : List Char :=
  pad4 dt.year ++ "-".data ++ pad2 dt.month ++ "-".data ++ pad2 dt.day ++ " ".data ++
  pad2 dt.hour ++ ":".data ++ pad2 dt.minute ++ ":".data ++ pad2 dt.second

/-- The `except` fallback of `parse_dt`:
`s.replace("T", " ").split(".")[0]`. -/
def parse_dt_fallback (cs : List Char) : List Char :=
  (cs.map fun c => if c = 'T' then ' ' else c).takeWhile fun c => c ≠ '.'

/-- Embedding of `parse_dt(s)`. -/
def parse_dt (s : Option (List Char)) : Option (List Char) :=
  match s with
  | none => none
  | some cs =>
    if cs = [] then none
    else
      match (if pyEndsWithZ cs then pyFromIsoformat (pyReplaceZ cs)
             else pyFromIsoformat cs) with
      | some dt => some (strftime_YmdHMS dt)
      | none => some (parse_dt_fallback cs)

/-- C9: `parse_dt` is total (never raises): null/empty input yields
`None`; every nonempty input yields a string; UTC-suffixed and naive ISO
inputs are formatted `YYYY-MM-DD HH:MM:SS`; on ISO parse failure the
original text is returned with every `T` replaced by a space and
truncated at the first dot (dropping the fractional seconds). -/
theorem C9_parse_dt_total :
    parse_dt none = none ∧
    parse_dt (some []) = none ∧
    (∀ cs, cs ≠ [] → (parse_dt (some cs)).isSome = true) ∧
    (∀ cs dt, pyEndsWithZ cs = true → pyFromIsoformat (pyReplaceZ cs) = some dt →
      parse_dt (some cs) = some (strftime_YmdHMS dt)) ∧
    (∀ cs dt, pyEndsWithZ cs = false → pyFromIsoformat cs = some dt →
      parse_dt (some cs) = some (strftime_YmdHMS dt)) ∧
    (∀ cs, cs ≠ [] →
      (if pyEndsWithZ cs then pyFromIsoformat (pyReplaceZ cs)
       else pyFromIsoformat cs) = none →
      parse_dt (some cs) =
        some ((cs.map fun c => if c = 'T' then ' ' else c).takeWhile fun c => c ≠ '.')) ∧
    parse_dt (some "2024-05-06T07:08:09Z".data) = some "2024-05-06 07:08:09".data ∧
    parse_dt (some "2024-05-06 07:08:09".data) = some "2024-05-06 07:08:09".data ∧
    parse_dt (some "2024-05-06T07:08:09.123456+03:00".data) =
      some "2024-05-06 07:08:09".data ∧
    parse_dt (some "06/05/2024 07:08:09.123".data) = some "06/05/2024 07:08:09".data ∧
    parse_dt (some "2024-13-01T00:00:00".data) = some "2024-13-01 00:00:00".data := by
  refine ⟨rfl, rfl, ?_, ?_, ?_, ?_, by decide, by decide, by decide, by decide, by decide⟩
  · intro cs hne
    simp only [parse_dt, if_neg hne]
    cases (if pyEndsWithZ cs then pyFromIsoformat (pyReplaceZ cs)
           else pyFromIsoformat cs) <;> simp
  · intro cs dt hz hp
    have hne : cs ≠ [] := by rintro rfl; simp [pyEndsWithZ] at hz
    simp [parse_dt, if_neg hne, hz, hp]
  · intro cs dt hz hp
    have hne : cs ≠ [] := by
      rintro rfl
      rw [show pyFromIsoformat ([] : List Char) = none from rfl] at hp
      cases hp
    simp [parse_dt, if_neg hne, hz, hp]
  · intro cs hne hfail
    simp [parse_dt, if_neg hne, hfail, parse_dt_fallback]

/-- C9 witness: concrete instances of the quantified conjuncts. -/
theorem C9_parse_dt_witness :
    (parse_dt (some "x".data)).isSome = true ∧
    parse_dt (some "2020-01-02T03:04:05Z".data) = some "2020-01-02 03:04:05".data ∧
    parse_dt (some "2020-01-02T03:04:05".data) = some "2020-01-02 03:04:05".data ∧
    parse_dt (some "12.5".data) = some "12".data := by
  refine ⟨C9_parse_dt_total.2.2.1 _ (by decide), ?_, ?_, ?_⟩
  · exact C9_parse_dt_total.2.2.2.1 _ ⟨2020, 1, 2, 3, 4, 5, 0, some 0⟩ (by decide) (by decide)
  · exact C9_parse_dt_total.2.2.2.2.1 _ ⟨2020, 1, 2, 3, 4, 5, 0, none⟩ (by decide) (by decide)
  · exact C9_parse_dt_total.2.2.2.2.2.1 _ (by decide) (by decide)

/-- One remote answer to one attempt of `fd_get` (`corretivo.py` and
`verificar_anexos.py`): an HTTP response with status code and optional
`Retry-After` header, or a transport-level failure
(`requests.RequestException` without a response). -/
inductive NetResp
  | http (status : Nat) (retryAfter : Option (List Char))
  | netFail
  deriving Repr, DecidableEq

/-- The guard `retry_after and retry_after.isdigit()` on the header
value. -/
def pyIsDigitStr (s : List Char) : Bool :=
  !s.isEmpty && s.all Char.isDigit

/-- The sleep chosen in the 429 branch of `fd_get`:
`min(float(retry_after), 60.0)` when the header is a digit string, else
`min(2 ** attempt, 60.0)` (both values are integral, so `Nat`). -/
def wait429 (attempt : Nat) (ra : Option (List Char)) : Nat :=
  match ra with
  | some s => if pyIsDigitStr s then min (digitsToNat s) 60 else min (2 ^ attempt) 60
  | none => min (2 ^ attempt) 60

/-- How a call of `fd_get` ends. -/
inductive FdOutcome
  | success (attempt : Nat)
  | httpError (status : Nat)
  | netError
  deriving Repr, DecidableEq

/-- The retry loop of `fd_get`, on explicit fuel; `resps i` is the
remote's answer to the `i`-th request.  The body mirrors the source:
on 429, sleep `wait429` and retry until `attempt` exceeds
`max_retries`, at which point `raise_for_status` propagates the 429;
on any other failure — transport errors and, because `requests.HTTPError`
is a `RequestException`, non-429 HTTP errors too — sleep
`min(2 ** attempt, 30)` and retry while `attempt < max_retries`, then
propagate; on a 2xx/3xx return the response.  The returned list is the
sleep trace.  Fuel `maxRetries + 1 - attempt` never reaches zero at a
recursive call, so the base case is unreachable and the function agrees
with the source's unbounded `while True` loop. -/
def fd_get_loop (resps : Nat → NetResp) (maxRetries : Nat) :
    Nat → Nat → List Nat × FdOutcome
  | _, 0 => ([], .netError)
  | attempt, fuel + 1 =>
    match resps attempt with
    | .http status ra =>
      if status = 429 then
        let w := wait429 attempt ra
        if maxRetries < attempt + 1 then ([w], .httpError 429)
        else
          let r := fd_get_loop resps maxRetries (attempt + 1) fuel
          (w :: r.1, r.2)
      else if 400 ≤ status then
        if attempt < maxRetries then
          let r := fd_get_loop resps maxRetries (attempt + 1) fuel
          (min (2 ^ attempt) 30 :: r.1, r.2)
        else ([], .httpError status)
      else ([], .success attempt)
    | .netFail =>
      if attempt < maxRetries then
        let r := fd_get_loop resps maxRetries (attempt + 1) fuel
        (min (2 ^ attempt) 30 :: r.1, r.2)
      else ([], .netError)

/-- `fd_get` with the source's default attempt ceiling `max_retries = 5`. -/
def fd_get (resps : Nat → NetResp) : List Nat × FdOutcome :=
  fd_get_loop resps 5 0 6

/-- Is this response a 429 rate-limit response? -/
def is429 : NetResp → Bool
  | .http status _ => status == 429
  | .netFail => false

/-- The `Retry-After` header of a response. -/
def retryAfterOf : NetResp → Option (List Char)
  | .http _ ra => ra
  | .netFail => none

theorem fd_loop_429_step (resps : Nat → NetResp) (attempt fuel : Nat)
    (h : is429 (resps attempt) = true) :
    fd_get_loop resps 5 attempt (fuel + 1) =
      if 5 < attempt + 1 then
        ([wait429 attempt (retryAfterOf (resps attempt))], .httpError 429)
      else
        (wait429 attempt (retryAfterOf (resps attempt)) ::
          (fd_get_loop resps 5 (attempt + 1) fuel).1,
         (fd_get_loop resps 5 (attempt + 1) fuel).2) := by
  cases hr : resps attempt with
  | http status ra =>
    rw [hr] at h
    have hs : status = 429 := by simpa [is429] using h
    subst hs
    by_cases hm : 5 < attempt + 1
    · simp [fd_get_loop, hr, retryAfterOf, hm]
    · simp [fd_get_loop, hr, retryAfterOf, hm]
  | netFail => rw [hr] at h; simp [is429] at h

theorem fd_loop_sleep_get (resps : Nat → NetResp) :
    ∀ (k attempt : Nat), attempt + k ≤ 5 →
      (∀ i, i ≤ k → is429 (resps (attempt + i)) = true) →
      (fd_get_loop resps 5 attempt (6 - attempt)).1.get? k =
        some (wait429 (attempt + k) (retryAfterOf (resps (attempt + k)))) := by
  intro k
  induction k with
  | zero =>
    intro attempt hle hall
    have h0 := hall 0 (le_refl 0)
    rw [Nat.add_zero] at h0 ⊢
    have hf : 6 - attempt = (5 - attempt) + 1 := by omega
    rw [hf, fd_loop_429_step resps attempt (5 - attempt) h0]
    by_cases hm : 5 < attempt + 1
    · simp [hm]
    · simp [hm]
  | succ k ih =>
    intro attempt hle hall
    have h0 := hall 0 (Nat.zero_le _)
    rw [Nat.add_zero] at h0
    have hf : 6 - attempt = (5 - attempt) + 1 := by omega
    rw [hf, fd_loop_429_step resps attempt (5 - attempt) h0]
    have hm : ¬ 5 < attempt + 1 := by omega
    rw [if_neg hm]
    have hfuel : 5 - attempt = 6 - (attempt + 1) := by omega
    rw [List.get?_cons_succ, hfuel]
    have harg : attempt + (k + 1) = (attempt + 1) + k := by omega
    rw [harg]
    refine ih (attempt + 1) (by omega) ?_
    intro i hi
    have heq : attempt + 1 + i = attempt + (i + 1) := by omega
    rw [heq]
    exact hall (i + 1) (by omega)

theorem fd_loop_exhaust (resps : Nat → NetResp) :
    ∀ (d attempt : Nat), attempt + d = 5 →
      (∀ i, attempt ≤ i → i ≤ 5 → is429 (resps i) = true) →
      (fd_get_loop resps 5 attempt (6 - attempt)).2 = .httpError 429 ∧
      (fd_get_loop resps 5 attempt (6 - attempt)).1.length = d + 1 := by
  intro d
  induction d with
  | zero =>
    intro attempt h5 hall
    obtain rfl : attempt = 5 := by omega
    have h0 := hall 5 (by omega) (by omega)
    rw [show (6 - 5 : Nat) = 0 + 1 from rfl, fd_loop_429_step resps 5 0 h0]
    simp
  | succ d ih =>
    intro attempt h5 hall
    have h0 := hall attempt (le_refl _) (by omega)
    have hf : 6 - attempt = (5 - attempt) + 1 := by omega
    rw [hf, fd_loop_429_step resps attempt (5 - attempt) h0]
    have hm : ¬ 5 < attempt + 1 := by omega
    rw [if_neg hm]
    have hfuel : 5 - attempt = 6 - (attempt + 1) := by omega
    rw [hfuel]
    have hrec := ih (attempt + 1) (by omega) (fun i hi1 hi2 => hall i (by omega) hi2)
    simpa using hrec

/-- C5: on a 429, `fd_get` sleeps exactly the capped numeric
`Retry-After` value (in particular at least `min(value, 60)`); with the
header absent or non-numeric the sleep before retry `k+1` is
`min(2 ** k, 60)` (base 1 second at attempt 0); under sustained 429s the
loop performs 6 requests — the initial one plus 5 retries — and then
propagates the 429 as an HTTP error. -/
theorem C5_rate_limit_backoff :
    (∀ resps s, resps 0 = NetResp.http 429 (some s) → pyIsDigitStr s = true →
      (fd_get resps).1.head? = some (min (digitsToNat s) 60)) ∧
    (∀ resps k, k ≤ 5 → (∀ i, i ≤ k → is429 (resps i) = true) →
      (fd_get resps).1.get? k = some (wait429 k (retryAfterOf (resps k)))) ∧
    (∀ attempt s, pyIsDigitStr s = false →
      wait429 attempt (some s) = min (2 ^ attempt) 60) ∧
    (∀ attempt, wait429 attempt none = min (2 ^ attempt) 60) ∧
    (∀ resps, (∀ i, i ≤ 5 → is429 (resps i) = true) →
      (fd_get resps).2 = FdOutcome.httpError 429 ∧ (fd_get resps).1.length = 6) := by
  have hget : ∀ resps k, k ≤ 5 → (∀ i, i ≤ k → is429 (resps i) = true) →
      (fd_get resps).1.get? k = some (wait429 k (retryAfterOf (resps k))) := by
    intro resps k hk hall
    have := fd_loop_sleep_get resps k 0 (by omega) (by
      intro i hi
      rw [Nat.zero_add]
      exact hall i hi)
    rw [Nat.zero_add] at this
    simpa [fd_get] using this
  refine ⟨?_, hget, ?_, ?_, ?_⟩
  · intro resps s h0 hd
    have h := hget resps 0 (by omega) (by
      intro i hi
      obtain rfl : i = 0 := by omega
      rw [h0]; simp [is429])
    rw [h0] at h
    simp only [retryAfterOf, wait429, hd, if_pos] at h
    rw [← List.get?_zero]
    simpa using h
  · intro attempt s hd
    simp [wait429, hd]
  · intro attempt
    simp [wait429]
  · intro resps hall
    have := fd_loop_exhaust resps 5 0 (by omega) (fun i hi1 hi2 => hall i hi2)
    simpa [fd_get] using this

/-- A remote that answers the first request with `429 Retry-After: 5`
and succeeds afterwards. -/
def w5resps : Nat → NetResp :=
  fun i => if i = 0 then NetResp.http 429 (some "5".data) else NetResp.http 200 none

/-- C5 witness: with `Retry-After: 5` the first sleep is exactly 5
seconds, and six straight 429s propagate the HTTP error after six
requests. -/
theorem C5_rate_limit_witness :
    ((fd_get w5resps).1.head? = some (min (digitsToNat "5".data) 60) ∧
      min (digitsToNat "5".data) 60 = 5) ∧
    ((fd_get fun _ => NetResp.http 429 none).2 = FdOutcome.httpError 429 ∧
      (fd_get fun _ => NetResp.http 429 none).1.length = 6) := by
  refine ⟨⟨C5_rate_limit_backoff.1 w5resps "5".data rfl (by decide), by decide⟩, ?_⟩
  exact C5_rate_limit_backoff.2.2.2.2 (fun _ => NetResp.http 429 none) (fun i _ => rfl)

/-- An Octadesk record returned by a lookup, reduced to its identity
(no other field of the cached dict matters to the claims). -/
abbrev OctaItem := Nat

/-- Association-list lookup modelling a Python dict used as a cache. -/
def lookupA {α β : Type} [DecidableEq α] (k : α) : List (α × β) → Option β
  | [] => none
  | (k', v) :: rest => if k = k' then some v else lookupA k rest

/-- Decimal string of a Python int (`str(fresh_contact_id)`). -/
def intDecimal (n : Int) : List Char :=
  if n < 0 then '-' :: natDecimal n.natAbs else natDecimal n.natAbs

/-- A filtered `/contacts` query issued by `octa_find_contact`. -/
inductive CtReq
  | byEmail (e : List Char)
  | byCf (prop val : List Char)
  deriving Repr, DecidableEq

/-- Outcome of one Octadesk contact GET as the resolver sees it: an item
extracted by `_first_item`, an empty result set, or an exception
(HTTP or otherwise — both caught and only logged). -/
inductive ApiResult
  | found (it : OctaItem)
  | notFound
  | failed
  deriving Repr, DecidableEq

/-- The per-run caches `_OCTA_CONTACT_BY_EMAIL` and
`_OCTA_CONTACT_BY_CF`. -/
structure CtCaches where
  byEmail : List (List Char × OctaItem)
  byCf : List ((List Char × List Char) × OctaItem)
  deriving Repr, DecidableEq

/-- The custom-field phase of `octa_find_contact` (runs when the email
phase found nothing); `reqs` accumulates the remote requests issued so
far in this call. -/
def contactCfPhase (api : CtReq → ApiResult) (freshContactId : Option Int)
    (cfKey : Option (List Char)) (st : CtCaches) (reqs : List CtReq) :
    Option OctaItem × CtCaches × List CtReq :=
  match cfKey, freshContactId with
  | some k, some fid =>
    if k.isEmpty then (none, st, reqs)
    else
      let prop := "customFields.".data ++ k
      let value := intDecimal fid
      match lookupA (prop, value) st.byCf with
      | some it => (some it, st, reqs)
      | none =>
        match api (.byCf prop value) with
        | .found it =>
          (some it, { st with byCf := ((prop, value), it) :: st.byCf },
           reqs ++ [.byCf prop value])
        | _ => (none, st, reqs ++ [.byCf prop value])
  | _, _ => (none, st, reqs)

/-- Embedding of `octa_find_contact`: lookup by email first (cache, then
remote; a found item is cached), falling through to the custom-field
lookup; exceptions are caught, so the call always returns.  The third
component lists the remote lookup calls performed. -/
def octa_find_contact (api : CtReq → ApiResult) (email : Option (List Char))
    (freshContactId : Option Int) (cfKey : Option (List Char)) (st : CtCaches) :
    Option OctaItem × CtCaches × List CtReq :=
  match email with
  | some e =>
    if e.isEmpty then contactCfPhase api freshContactId cfKey st []
    else
      match lookupA e st.byEmail with
      | some it => (some it, st, [])
      | none =>
        match api (.byEmail e) with
        | .found it =>
          (some it, { st with byEmail := (e, it) :: st.byEmail }, [.byEmail e])
        | _ => contactCfPhase api freshContactId cfKey st [.byEmail e]
  | none => contactCfPhase api freshContactId cfKey st []

/-- C7: a cached email resolves with zero remote calls and the cached
record; a successful first email lookup caches its result; hence after a
first successful resolution of an email, any later resolution of the
same email in the run performs zero additional remote lookup calls and
returns the same record. -/
theorem C7_contact_lookup_memoized :
    (∀ api e fid cfk (st : CtCaches) it, e ≠ [] → lookupA e st.byEmail = some it →
      octa_find_contact api (some e) fid cfk st = (some it, st, [])) ∧
    (∀ api e fid cfk (st : CtCaches) it, e ≠ [] → lookupA e st.byEmail = none →
      api (CtReq.byEmail e) = ApiResult.found it →
      octa_find_contact api (some e) fid cfk st =
        (some it, { st with byEmail := (e, it) :: st.byEmail }, [CtReq.byEmail e])) ∧
    (∀ api e fid cfk fid' cfk' (st : CtCaches) it, e ≠ [] →
      lookupA e st.byEmail = none → api (CtReq.byEmail e) = ApiResult.found it →
      octa_find_contact api (some e) fid' cfk'
          (octa_find_contact api (some e) fid cfk st).2.1 =
        (some it, (octa_find_contact api (some e) fid cfk st).2.1, [])) := by
  have hne : ∀ (e : List Char), e ≠ [] → e.isEmpty = false := by
    intro e h
    cases e with
    | nil => exact absurd rfl h
    | cons c cs => rfl
  have h1 : ∀ api e fid cfk (st : CtCaches) it, e ≠ [] → lookupA e st.byEmail = some it →
      octa_find_contact api (some e) fid cfk st = (some it, st, []) := by
    intro api e fid cfk st it he hc
    simp [octa_find_contact, hne e he, hc]
  have h2 : ∀ api e fid cfk (st : CtCaches) it, e ≠ [] → lookupA e st.byEmail = none →
      api (CtReq.byEmail e) = ApiResult.found it →
      octa_find_contact api (some e) fid cfk st =
        (some it, { st with byEmail := (e, it) :: st.byEmail }, [CtReq.byEmail e]) := by
    intro api e fid cfk st it he hc ha
    simp [octa_find_contact, hne e he, hc, ha]
  refine ⟨h1, h2, ?_⟩
  intro api e fid cfk fid' cfk' st it he hc ha
  rw [h2 api e fid cfk st it he hc ha]
  exact h1 api e fid' cfk' _ it he (by simp [lookupA])

/-- A remote that knows contact 42 under email `a@b.com`. -/
def c7Api : CtReq → ApiResult := fun r =>
  match r with
  | .byEmail e => if e = "a@b.com".data then .found 42 else .notFound
  | .byCf _ _ => .notFound

/-- C7 witness: the first resolution of `a@b.com` performs one remote
call and caches record 42; the second resolution performs zero remote
calls and returns the same record. -/
theorem C7_contact_lookup_witness :
    octa_find_contact c7Api (some "a@b.com".data) (some 1) none ⟨[], []⟩ =
      (some 42, ⟨[("a@b.com".data, 42)], []⟩, [CtReq.byEmail "a@b.com".data]) ∧
    octa_find_contact c7Api (some "a@b.com".data) (some 2) none
        ⟨[("a@b.com".data, 42)], []⟩ =
      (some 42, ⟨[("a@b.com".data, 42)], []⟩, []) := by
  constructor
  · exact C7_contact_lookup_memoized.2.1 c7Api _ (some 1) none ⟨[], []⟩ 42
      (by decide) rfl (by decide)
  · exact C7_contact_lookup_memoized.1 c7Api _ (some 2) none
      ⟨[("a@b.com".data, 42)], []⟩ 42 (by decide) (by simp [lookupA])

/-- A filtered `/organizations` query issued by
`octa_find_organization`. -/
inductive OrgReq
  | byCf (prop val : List Char)
  | byName (n : List Char)
  deriving Repr, DecidableEq

/-- Outcome of one Octadesk organization GET: an item, an empty result,
an `HTTPError` carrying the response body text, or another exception. -/
inductive OrgApiResult
  | found (it : OctaItem)
  | notFound
  | httpError (body : List Char)
  | otherError
  deriving Repr, DecidableEq

/-- The per-run caches `_OCTA_ORG_BY_CF` and `_OCTA_ORG_BY_NAME`. -/
structure OrgCaches where
  byCf : List ((List Char × List Char) × OctaItem)
  byName : List (List Char × OctaItem)
  deriving Repr, DecidableEq

/-- Embedding of `_fmt_err_body(text)`: strip, newlines to spaces, and
truncation to 240 characters with a trailing ellipsis. -/
def fmtErrBody (text : List Char) : List Char :=
  if text = [] then []
  else
    let t := (pyStrip text).map fun c => if c = '\n' then ' ' else c
    if 240 < t.length then t.take 240 ++ "…".data else t

/-- The by-name phase of `octa_find_organization`; it runs only while
`try_filters` is still set. -/
def orgNamePhase (api : OrgReq → OrgApiResult) (tryFilters : Bool)
    (name : Option (List Char)) (st : OrgCaches) (reqs : List OrgReq) :
    Option OctaItem × OrgCaches × List OrgReq :=
  match name with
  | some n =>
    if tryFilters && !n.isEmpty then
      match lookupA n st.byName with
      | some it => (some it, st, reqs)
      | none =>
        match api (.byName n) with
        | .found it =>
          (some it, { st with byName := (n, it) :: st.byName }, reqs ++ [.byName n])
        | _ => (none, st, reqs ++ [.byName n])
    else (none, st, reqs)
  | none => (none, st, reqs)

/-- Embedding of `octa_find_organization`: the local `try_filters` flag
starts `True` on every call; an `HTTPError` of the custom-field lookup
whose (formatted) body contains `INVALID_PROPERTY` clears it, which
skips the by-name lookup of the same call.  All exceptions are caught,
so the call always returns.  The third component lists the filtered
remote lookups performed by the call. -/
def octa_find_organization (api : OrgReq → OrgApiResult) (name : Option (List Char))
    (freshCompanyId : Option Int) (cfKey : Option (List Char)) (st : OrgCaches) :
    Option OctaItem × OrgCaches × List OrgReq :=
  match cfKey, freshCompanyId with
  | some k, some fid =>
    if k.isEmpty then orgNamePhase api true name st []
    else
      let prop := "customFields.".data ++ k
      let value := intDecimal fid
      match lookupA (prop, value) st.byCf with
      | some it => (some it, st, [])
      | none =>
        match api (.byCf prop value) with
        | .found it =>
          (some it, { st with byCf := ((prop, value), it) :: st.byCf }, [.byCf prop value])
        | .notFound => orgNamePhase api true name st [.byCf prop value]
        | .httpError body =>
          orgNamePhase api (!substrSearch "INVALID_PROPERTY".data (fmtErrBody body))
            name st [.byCf prop value]
        | .otherError => orgNamePhase api true name st [.byCf prop value]
  | _, _ => orgNamePhase api true name st []

/-- An organization-filter rejection body as the destination API
returns it. -/
def invalidPropBody : List Char :=
  "400 Bad Request: code INVALID_PROPERTY - filters are not supported for organizations".data

/-- A destination API that rejects every filtered organization query. -/
def c2Api : OrgReq → OrgApiResult := fun _ => OrgApiResult.httpError invalidPropBody

/-- First resolution call of the run (empty caches). -/
def c2Run1 : Option OctaItem × OrgCaches × List OrgReq :=
  octa_find_organization c2Api (some "Acme Corp".data) (some 77)
    (some "id_freshdesk".data) ⟨[], []⟩

/-- Second resolution call of the same run, on the caches the first call
left behind. -/
def c2Run2 : Option OctaItem × OrgCaches × List OrgReq :=
  octa_find_organization c2Api (some "Acme Corp".data) (some 77)
    (some "id_freshdesk".data) c2Run1.2.1

/-- C2 counterexample: after the first call receives `INVALID_PROPERTY`
for its custom-field lookup, a second resolution in the same run issues
a filtered custom-field organization lookup again — `try_filters` is a
local variable reset on every call, so the disabling does not extend to
the remainder of the run. -/
theorem C2_disable_counterexample :
    c2Run1.2.2 =
      [OrgReq.byCf "customFields.id_freshdesk".data "77".data] ∧
    c2Run2.2.2 =
      [OrgReq.byCf "customFields.id_freshdesk".data "77".data] := by
  exact ⟨by decide, by decide⟩

/-- C2 (amended): an `INVALID_PROPERTY` error on the organization
custom-field lookup suppresses the remaining filtered (by-name) lookup
for the rest of that resolution call only, and the call returns `None`
without raising; an `HTTPError` without that code leaves the by-name
lookup enabled.  The flag is local to the call, so subsequent
resolutions in the run attempt filtered lookups again. -/
theorem C2_invalid_property_disables_within_call :
    (∀ api nm fid k (st : OrgCaches) body, k.isEmpty = false →
      lookupA ("customFields.".data ++ k, intDecimal fid) st.byCf = none →
      api (OrgReq.byCf ("customFields.".data ++ k) (intDecimal fid)) =
        OrgApiResult.httpError body →
      substrSearch "INVALID_PROPERTY".data (fmtErrBody body) = true →
      octa_find_organization api nm (some fid) (some k) st =
        (none, st, [OrgReq.byCf ("customFields.".data ++ k) (intDecimal fid)])) ∧
    (∀ api n fid k (st : OrgCaches) body, k.isEmpty = false → n.isEmpty = false →
      lookupA ("customFields.".data ++ k, intDecimal fid) st.byCf = none →
      lookupA n st.byName = none →
      api (OrgReq.byCf ("customFields.".data ++ k) (intDecimal fid)) =
        OrgApiResult.httpError body →
      substrSearch "INVALID_PROPERTY".data (fmtErrBody body) = false →
      api (OrgReq.byName n) = OrgApiResult.notFound →
      octa_find_organization api (some n) (some fid) (some k) st =
        (none, st,
         [OrgReq.byCf ("customFields.".data ++ k) (intDecimal fid),
          OrgReq.byName n])) := by
  constructor
  · intro api nm fid k st body hk hc ha hs
    have hphase : ∀ reqs, orgNamePhase api false nm st reqs = (none, st, reqs) := by
      intro reqs
      cases nm with
      | none => rfl
      | some n => simp [orgNamePhase]
    simp at hc ha hs
    simp [octa_find_organization, hk, hc, ha, hs, hphase]
  · intro api n fid k st body hk hn hc hcn ha hs hb
    simp at hc ha hs
    simp [octa_find_organization, hk, hc, ha, hs, orgNamePhase, hn, hcn, hb]

/-- C2 witness: concrete instances of both conjuncts — an
`INVALID_PROPERTY` rejection stops after the custom-field lookup, while
a plain server error proceeds to the by-name lookup. -/
theorem C2_invalid_property_witness :
    octa_find_organization c2Api (some "Beta Ltda".data) (some 8)
        (some "id_freshdesk".data) ⟨[], []⟩ =
      (none, ⟨[], []⟩, [OrgReq.byCf "customFields.id_freshdesk".data "8".data]) ∧
    octa_find_organization
        (fun r => match r with
          | OrgReq.byCf _ _ => OrgApiResult.httpError "500 Server Error".data
          | OrgReq.byName _ => OrgApiResult.notFound)
        (some "Beta Ltda".data) (some 8) (some "id_freshdesk".data) ⟨[], []⟩ =
      (none, ⟨[], []⟩,
       [OrgReq.byCf "customFields.id_freshdesk".data "8".data,
        OrgReq.byName "Beta Ltda".data]) := by
  constructor
  · exact C2_invalid_property_disables_within_call.1 c2Api _ 8 _ ⟨[], []⟩
      invalidPropBody (by decide) rfl rfl (by decide)
  · exact C2_invalid_property_disables_within_call.2 _ _ 8 _ ⟨[], []⟩
      "500 Server Error".data (by decide) (by decide) rfl rfl rfl (by decide) rfl

/-- How one ticket of a `corretivo.py` run behaves remotely: the primary
fetch raises (caught and logged, no marker), the attachment phase raises
midway after `saved` files (caught and logged, no marker), or the ticket
completes with `saved` files downloaded. -/
inductive TicketOutcome
  | fetchFail
  | midFail (saved : Nat)
  | success (saved : Nat)
  deriving Repr, DecidableEq

/-- Observable state of a `process_tickets` run: the `state_dir`
completion markers (`ticket_<id>.done`), the tickets fetched from the
remote (with multiplicity), the per-ticket download records, and the
`processed` counter. -/
structure CorrState where
  markers : List Int
  fetched : List Int
  downloads : List (Int × Nat)
  processed : Nat
  deriving Repr, DecidableEq

/-- One iteration of the ticket loop of `process_tickets`: an existing
marker skips the ticket entirely (no fetch, no download); otherwise the
ticket is fetched, its attachments downloaded, and `marker.touch()` runs
only after the download phase finished without an exception. -/
def processOneTicket (beh : Int → TicketOutcome) (st : CorrState) (tid : Int) :
    CorrState :=
  if tid ∈ st.markers then { st with processed := st.processed + 1 }
  else
    match beh tid with
    | .fetchFail => { st with fetched := st.fetched ++ [tid] }
    | .midFail saved =>
      { st with fetched := st.fetched ++ [tid],
                downloads := st.downloads ++ [(tid, saved)] }
    | .success saved =>
      { markers := st.markers ++ [tid]
        fetched := st.fetched ++ [tid]
        downloads := st.downloads ++ [(tid, saved)]
        processed := st.processed + 1 }

/-- Embedding of `process_tickets` (`corretivo.py`); the batch slicing
in the source only partitions the ticket list, leaving order and
per-ticket behaviour unchanged, so the loop is folded directly. -/
def process_tickets (beh : Int → TicketOutcome) (tickets : List Int)
    (st : CorrState) : CorrState :=
  tickets.foldl (processOneTicket beh) st

theorem process_one_markers_mono (beh : Int → TicketOutcome) (st : CorrState)
    (t x : Int) (hx : x ∈ st.markers) : x ∈ (processOneTicket beh st t).markers := by
  unfold processOneTicket
  split
  · exact hx
  · cases beh t with
    | fetchFail => exact hx
    | midFail saved => exact hx
    | success saved => exact List.mem_append_left _ hx

theorem process_tickets_markers_mono (beh : Int → TicketOutcome) :
    ∀ (ts : List Int) (st : CorrState) (x : Int), x ∈ st.markers →
      x ∈ (process_tickets beh ts st).markers := by
  intro ts
  induction ts with
  | nil => intro st x hx; exact hx
  | cons t ts ih =>
    intro st x hx
    exact ih _ x (process_one_markers_mono beh st t x hx)

theorem process_tickets_skip (beh : Int → TicketOutcome) :
    ∀ (ts : List Int) (st : CorrState) (tid : Int), tid ∈ st.markers →
      (process_tickets beh ts st).fetched.count tid = st.fetched.count tid ∧
      ((process_tickets beh ts st).downloads.filter fun p => p.1 == tid) =
        st.downloads.filter fun p => p.1 == tid := by
  intro ts
  induction ts with
  | nil => intro st tid h; exact ⟨rfl, rfl⟩
  | cons t ts ih =>
    intro st tid h
    have step : process_tickets beh (t :: ts) st =
        process_tickets beh ts (processOneTicket beh st t) := rfl
    rw [step]
    by_cases hm : t ∈ st.markers
    · have hone : processOneTicket beh st t = { st with processed := st.processed + 1 } := by
        simp [processOneTicket, hm]
      rw [hone]
      exact ih _ tid h
    · have hne : t ≠ tid := fun he => hm (he ▸ h)
      have hbe : (t == tid) = false := by simpa using hne
      have hcount : ∀ l : List Int, (l ++ [t]).count tid = l.count tid := by
        intro l
        rw [List.count_append]
        have h0 : List.count tid [t] = 0 := by
          rw [List.count_eq_zero]
          intro hmem
          rw [List.mem_singleton] at hmem
          exact hne hmem.symm
        rw [h0, Nat.add_zero]
      have hfilter : ∀ (l : List (Int × Nat)) (k : Nat),
          ((l ++ [(t, k)]).filter fun p => p.1 == tid) =
            l.filter fun p => p.1 == tid := by
        intro l k
        rw [List.filter_append]
        have h0 : ([(t, k)].filter fun p => p.1 == tid) = [] := by
          simp [List.filter, hbe]
        rw [h0, List.append_nil]
      cases hb : beh t with
      | fetchFail =>
        have hone : processOneTicket beh st t =
            { st with fetched := st.fetched ++ [t] } := by
          simp [processOneTicket, hm, hb]
        rw [hone]
        obtain ⟨ih1, ih2⟩ := ih { st with fetched := st.fetched ++ [t] } tid h
        exact ⟨by rw [ih1]; exact hcount st.fetched, ih2⟩
      | midFail k =>
        have hone : processOneTicket beh st t =
            { st with fetched := st.fetched ++ [t],
                      downloads := st.downloads ++ [(t, k)] } := by
          simp [processOneTicket, hm, hb]
        rw [hone]
        obtain ⟨ih1, ih2⟩ :=
          ih { st with fetched := st.fetched ++ [t],
                       downloads := st.downloads ++ [(t, k)] } tid h
        exact ⟨by rw [ih1]; exact hcount st.fetched,
          by rw [ih2]; exact hfilter st.downloads k⟩
      | success k =>
        have hone : processOneTicket beh st t =
            ⟨st.markers ++ [t], st.fetched ++ [t],
             st.downloads ++ [(t, k)], st.processed + 1⟩ := by
          simp [processOneTicket, hm, hb]
        rw [hone]
        obtain ⟨ih1, ih2⟩ :=
          ih ⟨st.markers ++ [t], st.fetched ++ [t],
              st.downloads ++ [(t, k)], st.processed + 1⟩ tid
            (List.mem_append_left _ h)
        exact ⟨by rw [ih1]; exact hcount st.fetched,
          by rw [ih2]; exact hfilter st.downloads k⟩

theorem process_tickets_marker_sound (beh : Int → TicketOutcome) :
    ∀ (ts : List Int) (st : CorrState) (tid : Int),
      tid ∈ (process_tickets beh ts st).markers →
      tid ∈ st.markers ∨ ∃ saved, beh tid = TicketOutcome.success saved := by
  intro ts
  induction ts with
  | nil => intro st tid h; exact Or.inl h
  | cons t ts ih =>
    intro st tid h
    have step : process_tickets beh (t :: ts) st =
        process_tickets beh ts (processOneTicket beh st t) := rfl
    rw [step] at h
    rcases ih _ tid h with h1 | h2
    · by_cases hm : t ∈ st.markers
      · left; simpa [processOneTicket, hm] using h1
      · cases hb : beh t with
        | fetchFail => left; simpa [processOneTicket, hm, hb] using h1
        | midFail k => left; simpa [processOneTicket, hm, hb] using h1
        | success k =>
          have h1' : tid ∈ st.markers ++ [t] := by
            simpa [processOneTicket, hm, hb] using h1
          rcases List.mem_append.1 h1' with hl | hr
          · exact Or.inl hl
          · right
            obtain rfl : tid = t := by simpa using hr
            exact ⟨k, hb⟩
    · exact Or.inr h2

theorem process_tickets_all_marked (beh : Int → TicketOutcome) :
    ∀ (ts : List Int) (st : CorrState), (∀ tid ∈ ts, tid ∈ st.markers) →
      process_tickets beh ts st = { st with processed := st.processed + ts.length } := by
  intro ts
  induction ts with
  | nil => intro st h; simp [process_tickets]
  | cons t ts ih =>
    intro st h
    have hm : t ∈ st.markers := h t (List.mem_cons_self t ts)
    have hone : processOneTicket beh st t = { st with processed := st.processed + 1 } := by
      simp [processOneTicket, hm]
    have step : process_tickets beh (t :: ts) st =
        process_tickets beh ts { st with processed := st.processed + 1 } := by
      show process_tickets beh ts (processOneTicket beh st t) = _
      rw [hone]
    rw [step, ih { st with processed := st.processed + 1 }
      (fun tid ht => h tid (List.mem_cons_of_mem _ ht))]
    have harith : st.processed + 1 + ts.length = st.processed + (ts.length + 1) := by omega
    simp [harith]

theorem process_tickets_success_marks (beh : Int → TicketOutcome) :
    ∀ (ts : List Int) (st : CorrState),
      (∀ tid ∈ ts, ∃ saved, beh tid = TicketOutcome.success saved) →
      ∀ tid ∈ ts, tid ∈ (process_tickets beh ts st).markers := by
  intro ts
  induction ts with
  | nil => intro st hbeh tid h; cases h
  | cons t ts ih =>
    intro st hbeh tid h
    have step : process_tickets beh (t :: ts) st =
        process_tickets beh ts (processOneTicket beh st t) := rfl
    rw [step]
    rcases List.mem_cons.1 h with rfl | hin
    · have hmem : tid ∈ (processOneTicket beh st tid).markers := by
        by_cases hm : tid ∈ st.markers
        · have heq : (processOneTicket beh st tid).markers = st.markers := by
            simp [processOneTicket, hm]
          rw [heq]
          exact hm
        · obtain ⟨k, hk⟩ := hbeh tid (List.mem_cons_self tid ts)
          have : (processOneTicket beh st tid).markers = st.markers ++ [tid] := by
            simp [processOneTicket, hm, hk]
          rw [this]
          exact List.mem_append_right _ (by simp)
      exact process_tickets_markers_mono beh ts _ tid hmem
    · exact ih _ (fun x hx => hbeh x (List.mem_cons_of_mem _ hx)) tid hin

/-- C6: a ticket whose completion marker already exists is fetched zero
additional times and receives zero additional download records; a
marker present after a run was either present before the run or belongs
to a ticket whose attachment phase completed successfully (markers are
touched only after full processing); a run over fully marked tickets
only bumps the processed counter; a fully successful run marks every
ticket; and re-running over tickets that the previous run left marked
performs zero additional fetches and downloads. -/
theorem C6_marker_idempotency :
    (∀ beh ts (st : CorrState) tid, tid ∈ st.markers →
      (process_tickets beh ts st).fetched.count tid = st.fetched.count tid ∧
      ((process_tickets beh ts st).downloads.filter fun p => p.1 == tid) =
        st.downloads.filter fun p => p.1 == tid) ∧
    (∀ beh ts (st : CorrState) tid, tid ∈ (process_tickets beh ts st).markers →
      tid ∈ st.markers ∨ ∃ saved, beh tid = TicketOutcome.success saved) ∧
    (∀ beh ts (st : CorrState), (∀ tid ∈ ts, tid ∈ st.markers) →
      process_tickets beh ts st = { st with processed := st.processed + ts.length }) ∧
    (∀ beh ts (st : CorrState),
      (∀ tid ∈ ts, ∃ saved, beh tid = TicketOutcome.success saved) →
      ∀ tid ∈ ts, tid ∈ (process_tickets beh ts st).markers) ∧
    (∀ beh ts (st : CorrState),
      (∀ tid ∈ ts, tid ∈ (process_tickets beh ts st).markers) →
      (process_tickets beh ts (process_tickets beh ts st)).fetched =
        (process_tickets beh ts st).fetched ∧
      (process_tickets beh ts (process_tickets beh ts st)).downloads =
        (process_tickets beh ts st).downloads) := by
  refine ⟨fun beh ts => process_tickets_skip beh ts,
    fun beh ts => process_tickets_marker_sound beh ts,
    fun beh ts => process_tickets_all_marked beh ts,
    fun beh ts => process_tickets_success_marks beh ts, ?_⟩
  intro beh ts st hall
  rw [process_tickets_all_marked beh ts _ hall]
  exact ⟨rfl, rfl⟩

/-- A remote on which ticket 5 processes fully (two attachments) and
everything else fails at the fetch. -/
def c6Beh : Int → TicketOutcome := fun tid =>
  if tid = 5 then TicketOutcome.success 2 else TicketOutcome.fetchFail

/-- C6 witness: with ticket 5's marker already present, a run neither
fetches it nor downloads for it, and a run over only marked tickets just
bumps the processed counter. -/
theorem C6_marker_witness :
    (process_tickets c6Beh [5, 6] ⟨[5], [], [], 0⟩).fetched.count 5 =
      (⟨[5], [], [], 0⟩ : CorrState).fetched.count 5 ∧
    process_tickets c6Beh [5] ⟨[5], [], [], 0⟩ =
      { (⟨[5], [], [], 0⟩ : CorrState) with processed := 0 + 1 } := by
  exact ⟨(C6_marker_idempotency.1 c6Beh [5, 6] ⟨[5], [], [], 0⟩ 5 (by decide)).1,
    C6_marker_idempotency.2.2.1 c6Beh [5] ⟨[5], [], [], 0⟩ (by decide)⟩

/-- The committed batches of the staging database, each recorded as the
target table with the batch's row count. -/
structure DbState where
  committed : List (String × Nat)
  deriving Repr, DecidableEq

/-- Embedding of `MySQL.exec_many(sql, rows)`: an empty row list returns
without touching the pool; otherwise the batch runs in its own
connection/transaction — success commits, while a `MySQLError` rolls the
transaction back (the database keeps exactly its prior state), prints
the error, and re-raises it.  `fails` is whether MySQL raises on this
statement; the `Except.error` payload is the database state after the
rollback. -/
def exec_many (fails : Bool) (table : String) (nrows : Nat) (db : DbState) :
    Except DbState DbState :=
  if nrows = 0 then .ok db
  else if fails then .error db
  else .ok ⟨db.committed ++ [(table, nrows)]⟩

/-- How one ticket of a `sync_tickets` run behaves: does
`fd_get_ticket` succeed, and does the ticket's upsert raise a
`MySQLError`. -/
structure TicketBeh where
  fetchOk : Bool
  ticketWriteFails : Bool
  deriving Repr, DecidableEq

/-- Observable state of a `sync_tickets` run: the database, the error
ledger (`ERRORS`), and the tickets fully processed so far. -/
structure SyncState where
  db : DbState
  ledger : List LedgerEntry
  processedTickets : List Int
  deriving Repr, DecidableEq

/-- One iteration of the ticket loop of `sync_tickets`
(per-ticket-persist configuration), reduced to the parts the claim
concerns: a failing primary fetch is caught, logged
(`ticket_fetch_failed`) and skipped; the ticket-row upsert runs through
`exec_many`, and nothing in the loop catches a `MySQLError` it
re-raises, so the error propagates out (carrying the rolled-back
database, an unchanged ledger, and the tickets processed so far).  The
other per-entity writes of the loop go through the same `exec_many` and
behave identically, so the ticket write stands for all of them. -/
def syncStep (beh : Int → TicketBeh) (st : SyncState) (tid : Int) :
    Except SyncState SyncState :=
  if (beh tid).fetchOk = false then
    .ok { st with ledger := st.ledger ++ [⟨"ticket_fetch_failed", some tid⟩] }
  else
    match exec_many (beh tid).ticketWriteFails "tickets" 1 st.db with
    | .ok db2 =>
      .ok { st with db := db2, processedTickets := st.processedTickets ++ [tid] }
    | .error db2 => .error { st with db := db2 }

/-- Embedding of the ticket loop of `sync_tickets`: folding in `Except`
short-circuits at the first uncaught exception, exactly as the `for`
loop does. -/
def sync_tickets (beh : Int → TicketBeh) (ids : List Int) (st : SyncState) :
    Except SyncState SyncState :=
  ids.foldlM (syncStep beh) st

/-- The behaviour in which ticket 1's upsert raises a `MySQLError` and
every other ticket is fine. -/
def c1Beh : Int → TicketBeh := fun tid =>
  if tid = 1 then ⟨true, true⟩ else ⟨true, false⟩

/-- C1 counterexample: when ticket 1's row upsert raises, the run ends
in an uncaught exception (`Except.error`) — the failing write's
transaction is rolled back (database unchanged), but no error is
recorded in the ledger and ticket 2 is never processed: a single write
failure aborts the run. -/
theorem C1_write_failure_aborts_counterexample :
    sync_tickets c1Beh [1, 2] ⟨⟨[]⟩, [], []⟩ = Except.error ⟨⟨[]⟩, [], []⟩ := by
  rfl

/-- C1 (amended): a failing write rolls back exactly its own transaction
(the `Except.error` state carries the database unchanged by that write)
and the error is reported, but the exception is re-raised and nothing in
the ticket loop catches it: the run aborts with the remaining tickets
unprocessed and nothing added to the ledger.  Runs in which no reached
write fails complete normally, and a failed ticket fetch is logged and
skipped rather than aborting. -/
theorem C1_write_rollback_and_abort :
    (∀ fails table nrows (db out : DbState),
      exec_many fails table nrows db = Except.error out → out = db) ∧
    (∀ beh ids (st : SyncState),
      (∀ tid ∈ ids, (beh tid).fetchOk = true → (beh tid).ticketWriteFails = false) →
      (sync_tickets beh ids st).isOk = true) ∧
    (∀ beh (st : SyncState) tid rest, (beh tid).fetchOk = true →
      (beh tid).ticketWriteFails = true →
      sync_tickets beh (tid :: rest) st = Except.error st) ∧
    (∀ beh (st : SyncState) tid rest, (beh tid).fetchOk = false →
      sync_tickets beh (tid :: rest) st =
        sync_tickets beh rest
          { st with ledger := st.ledger ++ [⟨"ticket_fetch_failed", some tid⟩] }) := by
  refine ⟨?_, ?_, ?_, ?_⟩
  · intro fails table nrows db out h
    unfold exec_many at h
    split at h
    · cases h
    · split at h
      · cases h
        rfl
      · cases h
  · intro beh ids
    induction ids with
    | nil => intro st hok; rfl
    | cons t ts ih =>
      intro st hok
      have step : sync_tickets beh (t :: ts) st =
          syncStep beh st t >>= fun st' => sync_tickets beh ts st' := rfl
      rw [step]
      by_cases hf : (beh t).fetchOk = false
      · have : syncStep beh st t =
            .ok { st with ledger := st.ledger ++ [⟨"ticket_fetch_failed", some t⟩] } := by
          simp [syncStep, hf]
        rw [this]
        exact ih _ (fun tid ht => hok tid (List.mem_cons_of_mem _ ht))
      · have hft : (beh t).fetchOk = true := by
          cases hfx : (beh t).fetchOk
          · exact absurd hfx hf
          · rfl
        have hw : (beh t).ticketWriteFails = false :=
          hok t (List.mem_cons_self t ts) hft
        have : syncStep beh st t =
            .ok { st with db := ⟨st.db.committed ++ [("tickets", 1)]⟩,
                          processedTickets := st.processedTickets ++ [t] } := by
          simp [syncStep, hft, hw, exec_many]
        rw [this]
        exact ih _ (fun tid ht => hok tid (List.mem_cons_of_mem _ ht))
  · intro beh st tid rest hft hw
    have step : sync_tickets beh (tid :: rest) st =
        syncStep beh st tid >>= fun st' => sync_tickets beh rest st' := rfl
    rw [step]
    have : syncStep beh st tid = .error st := by
      simp [syncStep, hft, hw, exec_many]
    rw [this]
    rfl
  · intro beh st tid rest hf
    have step : sync_tickets beh (tid :: rest) st =
        syncStep beh st tid >>= fun st' => sync_tickets beh rest st' := rfl
    rw [step]
    have : syncStep beh st tid =
        .ok { st with ledger := st.ledger ++ [⟨"ticket_fetch_failed", some tid⟩] } := by
      simp [syncStep, hf]
    rw [this]
    rfl

/-- C1 witness: a concrete failing write aborts immediately with the
state unchanged, and a concrete failing fetch is logged and skipped. -/
theorem C1_write_rollback_witness :
    sync_tickets (fun _ => TicketBeh.mk true true) [3, 4] ⟨⟨[]⟩, [], []⟩ =
      Except.error ⟨⟨[]⟩, [], []⟩ ∧
    sync_tickets (fun _ => TicketBeh.mk false true) [3] ⟨⟨[]⟩, [], []⟩ =
      sync_tickets (fun _ => TicketBeh.mk false true) []
        ⟨⟨[]⟩, [⟨"ticket_fetch_failed", some 3⟩], []⟩ := by
  exact ⟨C1_write_rollback_and_abort.2.2.1 _ ⟨⟨[]⟩, [], []⟩ 3 [4] rfl rfl,
    C1_write_rollback_and_abort.2.2.2 _ ⟨⟨[]⟩, [], []⟩ 3 [] rfl⟩

end FreshToOcta
